import Mathlib

/- Shallow embedding of the femto-acs TR-069/CWMP server core
   (src/app.py and src/xmlutils.py).

   Conventions of the embedding:
   - Python `xml.etree` elements become the inductive `XmlElem`
     (tag, optional text, ordered children); `Element.find(tag)` is a
     first-match search over direct children, as in the source where every
     lookup uses a plain (possibly namespace-qualified) tag.
   - Python values that may be `None` become `Option`.
   - Code paths that raise an uncaught Python exception (KeyError on a
     missing session key or config section, AttributeError / TypeError in
     the Inform path) are modelled as `Except.error ()`; mutations already
     performed before the raise are kept in the returned state, matching
     Flask semantics where the cache write is immediate and the session is
     still saved when the error response is finalized.
   - The flask-caching per-serial store becomes `Cache`, a function from
     the key actually used by the source (`session['serial']`, an
     `Option String` since an Inform may store `None`) to `Option Bool`.
   - Modelled from the spec: the rendered template bodies
     (inform.jinja.xml, setparams.jinja.xml — templates are not part of
     src/) are abstracted as `Response` constructors carrying exactly the
     arguments the source passes to `render_template`; per the spec the
     Inform acknowledgement echoes `cwmpid` and the SetParameterValues
     body enumerates the resolved params with the hardcoded cwmp id 23.
   - configparser is out of scope per the spec (the core consumes a
     materialized mapping section-name to rows); `Config` is that mapping.
     `config[section]` on a missing section raises KeyError, modelled in
     `generate_config` as `Except.error ()` when `Common` is absent. -/

/- ## XML data model (xml.etree view used by src/xmlutils.py) -/

inductive XmlElem where
  | mk : String → Option String → List XmlElem → XmlElem

def XmlElem.tag : XmlElem → String
  | .mk t _ _ => t

def XmlElem.text : XmlElem → Option String
  | .mk _ t _ => t

def XmlElem.children : XmlElem → List XmlElem
  | .mk _ _ c => c

/-- First direct child with the given tag, in document order
(ElementTree `Element.find` with a plain tag path). -/
def findChild : List XmlElem → String → Option XmlElem
  | [], _ => none
  | c :: rest, t => if c.tag = t then some c else findChild rest t

def XmlElem.find (e : XmlElem) (t : String) : Option XmlElem :=
  findChild e.children t

/- ## Namespaces (XML_NS in src/xmlutils.py) -/

def soapNS : String := "http://schemas.xmlsoap.org/soap/envelope/"

def cwmpNS : String := "urn:dslforum-org:cwmp-1-0"

/-- Namespace-qualified tag, ElementTree style: brace, uri, brace, name. -/
def qualTag (ns t : String) : String := "\x7b" ++ ns ++ "\x7d" ++ t

/- ## src/xmlutils.py -/

/-- Loop body of get_cwmp_method: scan the Body children in order, first
match of one of the three recognized tags wins. -/
def scanBodyChildren : List XmlElem → Option (String × XmlElem)
  | [] => none
  | child :: rest =>
    if child.tag = qualTag soapNS ("Fault") then some (("Fault"), child)
    else if child.tag = qualTag cwmpNS ("Inform") then some (("Inform"), child)
    else if child.tag = qualTag cwmpNS ("SetParameterValuesResponse") then
      some (("SetParameterValuesResponse"), child)
    else scanBodyChildren rest

def get_cwmp_method (root : XmlElem) : Option (String × XmlElem) :=
  match root.find (qualTag soapNS ("Body")) with
  | none => none
  | some body => scanBodyChildren body.children

def get_cwmp_id (root : XmlElem) : Option String :=
  match root.find (qualTag soapNS ("Header")) with
  | none => none
  | some header =>
    match header.find (qualTag cwmpNS ("ID")) with
    | none => none
    | some cwmpid => cwmpid.text

/-- Loop body of get_cwmp_inform_events: for each EventStruct child, look up
EventCode and append its text.  An EventStruct without an EventCode makes the
source dereference `None.text` (AttributeError), modelled as `error`. -/
def collectEventCodes : List XmlElem → Except Unit (List (Option String))
  | [] => .ok []
  | ev :: rest =>
    if ev.tag = ("EventStruct") then
      match ev.find ("EventCode") with
      | none => .error ()
      | some evcode =>
        match collectEventCodes rest with
        | .error e => .error e
        | .ok codes => .ok (evcode.text :: codes)
    else collectEventCodes rest

/-- get_cwmp_inform_events: `ok none` models the source returning `None`
when the Event node is absent; `ok (some codes)` models the collected list. -/
def get_cwmp_inform_events (inform : XmlElem) : Except Unit (Option (List (Option String))) :=
  match inform.find ("Event") with
  | none => .ok none
  | some eventnode =>
    match collectEventCodes eventnode.children with
    | .error e => .error e
    | .ok events => .ok (some events)

def get_cwmp_inform_serial (inform : XmlElem) : Option String :=
  match inform.find ("DeviceId") with
  | none => none
  | some device_id =>
    match device_id.find ("SerialNumber") with
    | none => none
    | some serial => serial.text

def get_cwmp_setresponse_status (node : XmlElem) : Option String :=
  match node.find ("Status") with
  | none => none
  | some statusnode => statusnode.text

/- ## Configuration resolver (generate_config in src/app.py) -/

structure ParamEntry where
  value : String
  xmltype : String
deriving DecidableEq

/-- Python dict read: first (unique) binding of the key. -/
def dictGet : List (String × ParamEntry) → String → Option ParamEntry
  | [], _ => none
  | (k', v) :: rest, k => if k' = k then some v else dictGet rest k

/-- Python dict write: update in place if the key exists, else append
(preserving insertion order). -/
def dictSet : List (String × ParamEntry) → String → ParamEntry → List (String × ParamEntry)
  | [], k, v => [(k, v)]
  | (k', v') :: rest, k, v =>
    if k' = k then (k', v) :: rest else (k', v') :: dictSet rest k v

/-- Python str.split with a one-character separator, over the char list. -/
def splitCharsOnPipe : List Char → List (List Char)
  | [] => [[]]
  | c :: rest =>
    let r := splitCharsOnPipe rest
    if c = '|' then [] :: r
    else
      match r with
      | [] => [[c]]
      | g :: gs => (c :: g) :: gs

def splitOnPipe (s : String) : List String :=
  (splitCharsOnPipe s.data).map (fun l => String.mk l)

/-- One row of read_config_to_params: `val, xmltype = v.split('|')` succeeds
exactly when the split has two parts; the bare `except` turns any other
shape into a skip (logged in the source). -/
def rowEntry (v : String) : Option ParamEntry :=
  match splitOnPipe v with
  | [val, xmltype] => some ⟨val, xmltype⟩
  | _ => none

/-- The read_config_to_params loop over the rows of one section. -/
def read_config_rows : List (String × String) → List (String × ParamEntry) → List (String × ParamEntry)
  | [], params => params
  | (key, v) :: rest, params =>
    match rowEntry v with
    | some e => read_config_rows rest (dictSet params key e)
    | none => read_config_rows rest params

/-- Materialized configuration file: section name to its rows, as consumed
by generate_config (INI parsing itself is out of scope per the spec). -/
abbrev Config := List (String × List (String × String))

def cfgFind : Config → String → Option (List (String × String))
  | [], _ => none
  | (name, rows) :: rest, s => if name = s then some rows else cfgFind rest s

/-- Entry taken for key `k` by a left-to-right pass over `rows`: the last
well-formed row with that key wins.  Helper for stating override facts. -/
def lastResolved : List (String × String) → String → Option ParamEntry
  | [], _ => none
  | (key, v) :: rest, k =>
    match lastResolved rest k with
    | some e => some e
    | none => if key = k then rowEntry v else none

/-- generate_config: read Common (KeyError, hence `error`, if absent), then
overlay the serial section when the serial is truthy and such a section
exists. -/
def generate_config (config : Config) (serial : Option String) :
    Except Unit (List (String × ParamEntry)) :=
  match cfgFind config ("Common") with
  | none => .error ()
  | some commonRows =>
    match serial with
    | none => .ok (read_config_rows commonRows [])
    | some s =>
      if s ≠ "" then
        match cfgFind config s with
        | some rows => .ok (read_config_rows rows (read_config_rows commonRows []))
        | none => .ok (read_config_rows commonRows [])
      else .ok (read_config_rows commonRows [])

/- ## Needs-push ledger (flask-caching store) and server state -/

abbrev Cache := Option String → Option Bool

def Cache.set (c : Cache) (k : Option String) (b : Bool) : Cache :=
  fun k' => if k' = k then some b else c k'

/-- send_configuration in src/app.py. -/
def send_configuration (cache : Cache) (serial : Option String) (push : Bool) : Cache :=
  cache.set serial push

/-- need_configuration in src/app.py: returns the stored flag, inserting
`true` when the serial was never seen. -/
def need_configuration (cache : Cache) (serial : Option String) : Bool × Cache :=
  match cache serial with
  | none => (true, cache.set serial true)
  | some need => (need, cache)

/-- Per-exchange server state: the HTTP session's `serial` key (absent, or
present with a possibly-None value) and the needs-push ledger. -/
structure ServerState where
  session : Option (Option String)
  cache : Cache

/- ## Responses and dispatch (src/app.py) -/

inductive Response where
  | text : String → Response
  | emptyAck : Response
  | informAck : Option String → Response
  | setParams : Nat → List (String × ParamEntry) → Response
deriving DecidableEq

/-- Body of a POST to /acs with Content-Type text/xml: no data, data that
fromstring rejects, or a parsed tree. -/
inductive RequestBody where
  | empty : RequestBody
  | malformed : RequestBody
  | xml : XmlElem → RequestBody

/-- inform in src/app.py.  Order of effects follows the source: events are
extracted before the session write (an AttributeError there leaves the
session untouched); the boot check runs after the session write and raises
TypeError when the helper returned None (`'0 BOOTSTRAP' in None`); the log
line's `", ".join(events)` raises TypeError when some EventCode text is
None, after any ledger write. -/
def inform_handler (st : ServerState) (tree node : XmlElem) : Except Unit Response × ServerState :=
  let cwmpid := get_cwmp_id tree
  let serial := get_cwmp_inform_serial node
  match get_cwmp_inform_events node with
  | .error e => (.error e, st)
  | .ok eventsOpt =>
    match eventsOpt with
    | none => (.error (), ⟨some serial, st.cache⟩)
    | some events =>
      let cache' :=
        if some ("0 BOOTSTRAP") ∈ events ∨ some ("1 BOOT") ∈ events then
          send_configuration st.cache serial true
        else st.cache
      if (none : Option String) ∈ events then (.error (), ⟨some serial, cache'⟩)
      else (.ok (.informAck cwmpid), ⟨some serial, cache'⟩)

/-- send_setparams in src/app.py.  `session['serial']` raises KeyError when
absent; generate_config raises when the Common section is missing. -/
def send_setparams (config : Config) (st : ServerState) : Except Unit Response × ServerState :=
  match st.session with
  | none => (.error (), st)
  | some serial =>
    match generate_config config serial with
    | .error e => (.error e, st)
    | .ok params =>
      (.ok (.setParams 23 params), ⟨st.session, send_configuration st.cache serial true⟩)

/-- setparams_response in src/app.py.  The status is read and only logged
(the malformed log format for unknown statuses is swallowed by the logging
module); the ledger is cleared unconditionally. -/
def setparams_response (st : ServerState) (node : XmlElem) : Except Unit Response × ServerState :=
  match st.session with
  | none => (.error (), st)
  | some serial =>
    let _status := get_cwmp_setresponse_status node
    (.ok .emptyAck, ⟨st.session, send_configuration st.cache serial false⟩)

/-- The POST branch of acs in src/app.py, after the content-type check. -/
def handle_post (config : Config) (st : ServerState) (body : RequestBody) :
    Except Unit Response × ServerState :=
  match body with
  | .empty =>
    match st.session with
    | none => (.ok .emptyAck, st)
    | some serial =>
      match need_configuration st.cache serial with
      | (need, cache') =>
        if need then send_setparams config ⟨st.session, cache'⟩
        else (.ok .emptyAck, ⟨st.session, cache'⟩)
  | .malformed => (.ok (.text ("Could not parse the request as XML")), st)
  | .xml tree =>
    match get_cwmp_method tree with
    | none => (.ok (.text ("Failed to get the cwmp method")), st)
    | some (method, node) =>
      if method = ("Fault") then (.ok (.text ("Fault")), st)
      else if method = ("Inform") then inform_handler st tree node
      else if method = ("SetParameterValuesResponse") then setparams_response st node
      else (.ok (.text ("This is a femto-acs/tr069 server")), st)

/- ## Concrete instances used by witnesses and counterexamples -/

def exCacheEmpty : Cache := fun _ => none

def exCommonRows : List (String × String) :=
  [(("Foo"), ("1|xsd:int")), (("Bad"), ("noseparator")), (("Bar"), ("2|xsd:string"))]

def exSerialRows : List (String × String) := [(("Foo"), ("9|xsd:int"))]

def exConfig : Config := [(("Common"), exCommonRows), (("SN1"), exSerialRows)]

def exStSession : ServerState := ⟨some (some ("SN1")), exCacheEmpty⟩

def exSt0 : ServerState := ⟨none, exCacheEmpty⟩

def exStOld : ServerState := ⟨some (some ("OLD")), exCacheEmpty⟩

def exNodeSpvr : XmlElem :=
  XmlElem.mk (qualTag cwmpNS ("SetParameterValuesResponse")) none
    [XmlElem.mk ("Status") (some ("1")) []]

def exTreeSpvr : XmlElem :=
  XmlElem.mk ("Envelope") none
    [XmlElem.mk (qualTag soapNS ("Body")) none [exNodeSpvr]]

def exNodeInformBoot : XmlElem :=
  XmlElem.mk (qualTag cwmpNS ("Inform")) none
    [XmlElem.mk ("DeviceId") none [XmlElem.mk ("SerialNumber") (some ("SN1")) []],
     XmlElem.mk ("Event") none
       [XmlElem.mk ("EventStruct") none
          [XmlElem.mk ("EventCode") (some ("0 BOOTSTRAP")) []]]]

def exTreeInformBoot : XmlElem :=
  XmlElem.mk ("Envelope") none
    [XmlElem.mk (qualTag soapNS ("Header")) none
       [XmlElem.mk (qualTag cwmpNS ("ID")) (some ("77")) []],
     XmlElem.mk (qualTag soapNS ("Body")) none [exNodeInformBoot]]

def exNodeInformNoEvent : XmlElem :=
  XmlElem.mk (qualTag cwmpNS ("Inform")) none
    [XmlElem.mk ("DeviceId") none [XmlElem.mk ("SerialNumber") (some ("SN1")) []]]

def exTreeInformNoEvent : XmlElem :=
  XmlElem.mk ("Envelope") none
    [XmlElem.mk (qualTag soapNS ("Body")) none [exNodeInformNoEvent]]

def exNodeInformBadEvent : XmlElem :=
  XmlElem.mk (qualTag cwmpNS ("Inform")) none
    [XmlElem.mk ("DeviceId") none [XmlElem.mk ("SerialNumber") (some ("SN1")) []],
     XmlElem.mk ("Event") none [XmlElem.mk ("EventStruct") none []]]

/- ## Dictionary and row lemmas -/

/-- Reading after a dict write: the written key sees the new entry, other
keys are untouched. -/
theorem dictGet_dictSet (p : List (String × ParamEntry)) (ks k : String) (v : ParamEntry) :
    dictGet (dictSet p ks v) k = if ks = k then some v else dictGet p k := by
  induction p with
  | nil => simp [dictSet, dictGet]
  | cons a rest ih =>
    obtain ⟨ak, av⟩ := a
    by_cases h1 : ak = ks
    · subst h1
      by_cases h2 : ak = k
      · subst h2
        simp [dictSet, dictGet]
      · simp [dictSet, dictGet, h2]
    · by_cases h2 : ks = k
      · subst h2
        simp [dictSet, dictGet, h1, ih]
      · simp [dictSet, dictGet, h1, h2, ih]

/-- A malformed row in the middle of a section behaves exactly as if the
row were not there. -/
theorem read_append_malformed (pre post : List (String × String)) (k v : String)
    (params : List (String × ParamEntry)) (hre : rowEntry v = none) :
    read_config_rows (pre ++ (k, v) :: post) params = read_config_rows (pre ++ post) params := by
  induction pre generalizing params with
  | nil =>
    simp only [List.nil_append, read_config_rows, hre]
  | cons r rest ih =>
    obtain ⟨rk, rv⟩ := r
    simp only [List.cons_append, read_config_rows]
    cases hr : rowEntry rv
    · exact ih params
    · exact ih (dictSet params rk _)

/-- A key whose every row in a section is malformed never enters the
resolved mapping. -/
theorem read_keeps_absent : ∀ (rows : List (String × String)) (params : List (String × ParamEntry))
    (k : String), (∀ r ∈ rows, r.1 = k → rowEntry r.2 = none) → dictGet params k = none →
    dictGet (read_config_rows rows params) k = none := by
  intro rows
  induction rows with
  | nil =>
    intro params k _ hpk
    simpa [read_config_rows] using hpk
  | cons r rest ih =>
    intro params k hall hpk
    obtain ⟨rk, rv⟩ := r
    simp only [read_config_rows]
    cases hr : rowEntry rv with
    | none => exact ih params k (fun r h => hall r (List.mem_cons_of_mem _ h)) hpk
    | some e =>
      have hk : rk ≠ k := by
        intro hkk
        have hcon := hall (rk, rv) (List.mem_cons_self _ _) hkk
        rw [hcon] at hr
        cases hr
      refine ih (dictSet params rk e) k (fun r h => hall r (List.mem_cons_of_mem _ h)) ?_
      rw [dictGet_dictSet, if_neg hk]
      exact hpk

/-- Once a key is present in the accumulating params, reading further rows
never removes it. -/
theorem read_presence_mono : ∀ (rows : List (String × String)) (params : List (String × ParamEntry))
    (k : String), (dictGet params k).isSome = true →
    (dictGet (read_config_rows rows params) k).isSome = true := by
  intro rows
  induction rows with
  | nil =>
    intro params k h
    simpa [read_config_rows] using h
  | cons r rest ih =>
    intro params k h
    obtain ⟨rk, rv⟩ := r
    simp only [read_config_rows]
    cases hr : rowEntry rv with
    | none => exact ih params k h
    | some e =>
      refine ih (dictSet params rk e) k ?_
      rw [dictGet_dictSet]
      by_cases hk : rk = k
      · rw [if_pos hk]
        rfl
      · rw [if_neg hk]
        exact h

/-- Every well-formed row of a section ends up with its key present in the
resolved mapping. -/
theorem read_resolves : ∀ (rows : List (String × String)) (params : List (String × ParamEntry))
    (k' v' : String) (e : ParamEntry), (k', v') ∈ rows → rowEntry v' = some e →
    (dictGet (read_config_rows rows params) k').isSome = true := by
  intro rows
  induction rows with
  | nil =>
    intro _ _ _ _ h _
    cases h
  | cons r rest ih =>
    intro params k' v' e hmem hre
    obtain ⟨rk, rv⟩ := r
    rcases List.mem_cons.1 hmem with heq | hmem'
    · injection heq with h1 h2
      subst h1
      subst h2
      simp only [read_config_rows, hre]
      refine read_presence_mono rest (dictSet params k' e) k' ?_
      rw [dictGet_dictSet, if_pos rfl]
      rfl
    · simp only [read_config_rows]
      cases hr : rowEntry rv with
      | none => exact ih params k' v' e hmem' hre
      | some e2 => exact ih (dictSet params rk e2) k' v' e hmem' hre

/-- When no row of a section resolves key `k`, reading the section leaves
`k`'s binding exactly as it was. -/
theorem read_of_lastResolved_none : ∀ (rows : List (String × String)) (k : String),
    lastResolved rows k = none → ∀ params,
    dictGet (read_config_rows rows params) k = dictGet params k := by
  intro rows
  induction rows with
  | nil =>
    intro k _ params
    rfl
  | cons r rest ih =>
    intro k h params
    obtain ⟨rk, rv⟩ := r
    simp only [lastResolved] at h
    cases hlr : lastResolved rest k with
    | some e =>
      rw [hlr] at h
      cases h
    | none =>
      rw [hlr] at h
      simp only [read_config_rows]
      cases hre : rowEntry rv with
      | none => exact ih k hlr params
      | some e =>
        rw [hre] at h
        by_cases hk : rk = k
        · rw [if_pos hk] at h
          cases h
        · rw [ih k hlr (dictSet params rk e), dictGet_dictSet, if_neg hk]

/-- The binding a section pass leaves for key `k` is the entry of the last
well-formed row with that key, independent of the initial params. -/
theorem read_of_lastResolved_some : ∀ (rows : List (String × String)) (k : String) (e : ParamEntry),
    lastResolved rows k = some e → ∀ params,
    dictGet (read_config_rows rows params) k = some e := by
  intro rows
  induction rows with
  | nil =>
    intro k e h
    cases h
  | cons r rest ih =>
    intro k e h params
    obtain ⟨rk, rv⟩ := r
    cases hlr : lastResolved rest k with
    | some e2 =>
      have he : e2 = e := by
        simp only [lastResolved, hlr] at h
        exact Option.some.inj h
      simp only [read_config_rows]
      cases hre : rowEntry rv with
      | none => exact he ▸ ih k e2 hlr params
      | some e3 => exact he ▸ ih k e2 hlr (dictSet params rk e3)
    | none =>
      have h2 : (if rk = k then rowEntry rv else none) = some e := by
        simp only [lastResolved, hlr] at h
        exact h
      by_cases hk : rk = k
      · rw [if_pos hk] at h2
        subst hk
        simp only [read_config_rows, h2]
        rw [read_of_lastResolved_none rest rk hlr (dictSet params rk e), dictGet_dictSet, if_pos rfl]
      · rw [if_neg hk] at h2
        cases h2

/- ## Claim theorems: configuration resolver -/

/-- Claim C5 (confirmed): during configuration resolution, a row whose
value does not split on exactly one pipe is skipped: resolution of the
remaining rows proceeds exactly as if the row were absent, the malformed
row contributes no key to the result, and every well-formed remaining row
of the same section is still resolved. -/
theorem claim_C5 (pre post : List (String × String)) (k v : String)
    (params : List (String × ParamEntry))
    (hbad : (splitOnPipe v).length ≠ 2) :
    read_config_rows (pre ++ (k, v) :: post) params = read_config_rows (pre ++ post) params ∧
    ((∀ r ∈ pre ++ post, r.1 = k → rowEntry r.2 = none) → dictGet params k = none →
      dictGet (read_config_rows (pre ++ (k, v) :: post) params) k = none) ∧
    (∀ k' v' e, (k', v') ∈ pre ++ post → rowEntry v' = some e →
      (dictGet (read_config_rows (pre ++ (k, v) :: post) params) k').isSome = true) := by
  have hre : rowEntry v = none := by
    unfold rowEntry
    cases hsp : splitOnPipe v with
    | nil => rfl
    | cons a t =>
      cases t with
      | nil => rfl
      | cons b t2 =>
        cases t2 with
        | nil =>
          exfalso
          exact hbad (by rw [hsp]; rfl)
        | cons c t3 => rfl
  have hskip := read_append_malformed pre post k v params hre
  refine ⟨hskip, ?_, ?_⟩
  · intro hall hpk
    rw [hskip]
    exact read_keeps_absent (pre ++ post) params k hall hpk
  · intro k' v' e hmem hre'
    rw [hskip]
    exact read_resolves (pre ++ post) params k' v' e hmem hre'

/-- Witness for C5 at a concrete section: the malformed middle row is
skipped, introduces no key, and the remaining rows still resolve. -/
theorem claim_C5_witness :
    read_config_rows ([(("A"), ("1|t"))] ++ (("K"), ("nobar")) :: [(("B"), ("2|u"))]) [] =
      read_config_rows ([(("A"), ("1|t"))] ++ [(("B"), ("2|u"))]) [] ∧
    dictGet (read_config_rows ([(("A"), ("1|t"))] ++ (("K"), ("nobar")) :: [(("B"), ("2|u"))]) [])
      ("K") = none ∧
    (dictGet (read_config_rows ([(("A"), ("1|t"))] ++ (("K"), ("nobar")) :: [(("B"), ("2|u"))]) [])
      ("B")).isSome = true :=
  have h := claim_C5 [(("A"), ("1|t"))] [(("B"), ("2|u"))] ("K") ("nobar") [] (by decide)
  ⟨h.1, h.2.1 (by decide) rfl, h.2.2 ("B") ("2|u") ⟨("2"), ("u")⟩ (by decide) rfl⟩

/-- Claim C6 (confirmed): with a section named exactly the serial, every
key resolved by both the Common and the serial section takes the serial
section's value and xmltype in the result; with no serial, the result is
the Common section resolved alone. -/
theorem claim_C6 (config : Config) (s : String) (rc rs : List (String × String))
    (k : String) (e ec : ParamEntry)
    (hC : cfgFind config ("Common") = some rc)
    (hs : s ≠ "")
    (hS : cfgFind config s = some rs)
    (_hkc : lastResolved rc k = some ec)
    (hks : lastResolved rs k = some e) :
    generate_config config (some s) = Except.ok (read_config_rows rs (read_config_rows rc [])) ∧
    dictGet (read_config_rows rs (read_config_rows rc [])) k = some e ∧
    generate_config config none = Except.ok (read_config_rows rc []) := by
  refine ⟨?_, read_of_lastResolved_some rs k e hks (read_config_rows rc []), ?_⟩
  · unfold generate_config
    rw [hC]
    simp only [if_pos hs]
    rw [hS]
  · unfold generate_config
    rw [hC]

/-- Witness for C6 at a concrete config: the SN1 section's entry for Foo
overrides the Common one, and resolving without a serial gives Common
alone. -/
theorem claim_C6_witness :
    generate_config exConfig (some ("SN1")) =
      Except.ok (read_config_rows exSerialRows (read_config_rows exCommonRows [])) ∧
    dictGet (read_config_rows exSerialRows (read_config_rows exCommonRows [])) ("Foo") =
      some ⟨("9"), ("xsd:int")⟩ ∧
    generate_config exConfig none = Except.ok (read_config_rows exCommonRows []) :=
  claim_C6 exConfig ("SN1") exCommonRows exSerialRows ("Foo")
    ⟨("9"), ("xsd:int")⟩ ⟨("1"), ("xsd:int")⟩ rfl (by decide) rfl rfl rfl

/- ## Claim theorems: ledger -/

/-- Claim C9 (confirmed): after need_configuration the ledger always holds
an entry for the serial equal to the returned value, and a pre-existing
entry is returned as-is with the whole ledger unchanged. -/
theorem claim_C9 (cache : Cache) (serial : Option String) :
    (need_configuration cache serial).2 serial = some (need_configuration cache serial).1 ∧
    ∀ b, cache serial = some b →
      (need_configuration cache serial).1 = b ∧ (need_configuration cache serial).2 = cache := by
  cases h : cache serial with
  | none =>
    constructor
    · simp [need_configuration, h, Cache.set]
    · intro b hb
      cases hb
  | some need =>
    constructor
    · simp [need_configuration, h]
    · intro b hb
      injection hb with hb2
      subst hb2
      simp [need_configuration, h]

/-- Witness for C9 on a ledger already holding true for SN1: the call
returns the stored value and leaves the ledger untouched. -/
theorem claim_C9_witness :
    (need_configuration (Cache.set exCacheEmpty (some ("SN1")) true) (some ("SN1"))).2
        (some ("SN1")) =
      some (need_configuration (Cache.set exCacheEmpty (some ("SN1")) true) (some ("SN1"))).1 ∧
    ((need_configuration (Cache.set exCacheEmpty (some ("SN1")) true) (some ("SN1"))).1 = true ∧
      (need_configuration (Cache.set exCacheEmpty (some ("SN1")) true) (some ("SN1"))).2 =
        Cache.set exCacheEmpty (some ("SN1")) true) :=
  ⟨(claim_C9 (Cache.set exCacheEmpty (some ("SN1")) true) (some ("SN1"))).1,
   (claim_C9 (Cache.set exCacheEmpty (some ("SN1")) true) (some ("SN1"))).2 true rfl⟩

/- ## Claim theorems: dispatcher -/

/-- Claim C8 (confirmed): a POST body that is not well-formed XML gets the
plain-text parse-error string and the state — session serial and every
ledger entry — is returned exactly as it was. -/
theorem claim_C8 (config : Config) (st : ServerState) :
    handle_post config st .malformed =
      (.ok (.text ("Could not parse the request as XML")), st) := rfl

/-- Claim C1 (refuted as stated): for a never-seen serial with a session
serial set, the first empty-body poll does write true into the ledger, but
the response is the SetParameterValues push, not an empty acknowledgement —
need_configuration returns true for the fresh entry and the dispatcher
immediately calls send_setparams. -/
theorem claim_C1_counterexample :
    (handle_post exConfig exStSession .empty).1 =
      .ok (.setParams 23 [(("Foo"), ⟨("9"), ("xsd:int")⟩), (("Bar"), ⟨("2"), ("xsd:string")⟩)]) ∧
    (handle_post exConfig exStSession .empty).2.cache (some ("SN1")) = some true ∧
    decide (Response.setParams 23
        [(("Foo"), ⟨("9"), ("xsd:int")⟩), (("Bar"), ⟨("2"), ("xsd:string")⟩)] =
      Response.emptyAck) = false :=
  ⟨rfl, rfl, by decide⟩

/-- Claim C1 (amended): for a never-seen serial with a session serial set,
an empty-body POST writes true into the ledger for that serial and, when
the configuration source resolves, responds with the SetParameterValues
push for the resolved parameters on that same exchange; the session serial
is unchanged. -/
theorem claim_C1_amended (config : Config) (st : ServerState) (serial : Option String)
    (ps : List (String × ParamEntry))
    (hs : st.session = some serial)
    (hc : st.cache serial = none)
    (hg : generate_config config serial = Except.ok ps) :
    (handle_post config st .empty).1 = .ok (.setParams 23 ps) ∧
    (handle_post config st .empty).2.cache serial = some true ∧
    (handle_post config st .empty).2.session = some serial := by
  have hstep : handle_post config st .empty =
      (.ok (.setParams 23 ps),
        ⟨some serial, send_configuration (Cache.set st.cache serial true) serial true⟩) := by
    simp only [handle_post]
    rw [hs]
    simp only [need_configuration, hc, if_true]
    simp only [send_setparams, hg]
  rw [hstep]
  refine ⟨rfl, ?_, rfl⟩
  simp [send_configuration, Cache.set]

/-- Witness for the amended C1 at a concrete unseen serial and config. -/
theorem claim_C1_amended_witness :
    (handle_post exConfig exStSession .empty).1 =
      .ok (.setParams 23 [(("Foo"), ⟨("9"), ("xsd:int")⟩), (("Bar"), ⟨("2"), ("xsd:string")⟩)]) ∧
    (handle_post exConfig exStSession .empty).2.cache (some ("SN1")) = some true ∧
    (handle_post exConfig exStSession .empty).2.session = some (some ("SN1")) :=
  claim_C1_amended exConfig exStSession (some ("SN1"))
    [(("Foo"), ⟨("9"), ("xsd:int")⟩), (("Bar"), ⟨("2"), ("xsd:string")⟩)] rfl rfl rfl

/-- Claim C2 (confirmed): a SetParameterValuesResponse for a session with a
stored serial — whatever the Status node holds, or if it is absent — clears
the ledger entry to false and is answered by an empty acknowledgement, and
a subsequent empty-body poll in the same session again yields an empty
acknowledgement rather than a push. -/
theorem claim_C2 (config : Config) (st : ServerState) (tree node : XmlElem)
    (serial : Option String)
    (hm : get_cwmp_method tree = some (("SetParameterValuesResponse"), node))
    (hs : st.session = some serial) :
    handle_post config st (.xml tree) =
      (.ok .emptyAck, ⟨some serial, send_configuration st.cache serial false⟩) ∧
    handle_post config ⟨some serial, send_configuration st.cache serial false⟩ .empty =
      (.ok .emptyAck, ⟨some serial, send_configuration st.cache serial false⟩) := by
  constructor
  · simp only [handle_post, hm, if_true]
    simp only [setparams_response]
    rw [hs]
    rfl
  · have hget : (send_configuration st.cache serial false) serial = some false := by
      simp [send_configuration, Cache.set]
    simp only [handle_post, need_configuration, hget]
    rfl

/-- Witness for C2 at a concrete SetParameterValuesResponse with Status 1:
the ledger entry for SN1 is cleared, the exchange and the following poll
both answer with the empty acknowledgement. -/
theorem claim_C2_witness :
    handle_post exConfig exStSession (.xml exTreeSpvr) =
      (.ok .emptyAck,
        ⟨some (some ("SN1")), send_configuration exStSession.cache (some ("SN1")) false⟩) ∧
    handle_post exConfig
        ⟨some (some ("SN1")), send_configuration exStSession.cache (some ("SN1")) false⟩ .empty =
      (.ok .emptyAck,
        ⟨some (some ("SN1")), send_configuration exStSession.cache (some ("SN1")) false⟩) :=
  claim_C2 exConfig exStSession exTreeSpvr exNodeSpvr (some ("SN1")) rfl rfl

/- ## Claim theorems: Inform handling -/

/-- Claim C3 (refuted as stated): an Inform whose Event list has an
EventStruct without an EventCode makes the events extraction raise before
the session write, so the extracted serial (SN1 here) is NOT stored — the
session keeps its prior value OLD. -/
theorem claim_C3_counterexample :
    get_cwmp_inform_serial exNodeInformBadEvent = some ("SN1") ∧
    (inform_handler exStOld exTreeInformNoEvent exNodeInformBadEvent).2.session =
      some (some ("OLD")) ∧
    decide ((some (some ("OLD")) : Option (Option String)) = some (some ("SN1"))) = false :=
  ⟨rfl, rfl, by decide⟩

/-- Claim C3 (amended): for every Inform whose events extraction does not
raise (every EventStruct carries an EventCode), the extracted serial is
stored into the session overwriting any prior value; when the extracted
event list contains 0 BOOTSTRAP or 1 BOOT the ledger entry for that serial
is forced to true, and otherwise — including an absent Event node — the
ledger is left unchanged. -/
theorem claim_C3_amended (st : ServerState) (tree node : XmlElem)
    (evOpt : Option (List (Option String)))
    (hev : get_cwmp_inform_events node = .ok evOpt) :
    (inform_handler st tree node).2.session = some (get_cwmp_inform_serial node) ∧
    (∀ events, evOpt = some events →
      (some ("0 BOOTSTRAP") ∈ events ∨ some ("1 BOOT") ∈ events) →
      (inform_handler st tree node).2.cache =
        Cache.set st.cache (get_cwmp_inform_serial node) true) ∧
    ((∀ events, evOpt = some events →
        ¬ some ("0 BOOTSTRAP") ∈ events ∧ ¬ some ("1 BOOT") ∈ events) →
      (inform_handler st tree node).2.cache = st.cache) := by
  cases evOpt with
  | none =>
    have hI : inform_handler st tree node =
        (.error (), ⟨some (get_cwmp_inform_serial node), st.cache⟩) := by
      simp only [inform_handler, hev]
    rw [hI]
    refine ⟨rfl, ?_, ?_⟩
    · intro events h
      cases h
    · intro _
      rfl
  | some events =>
    by_cases hboot : some ("0 BOOTSTRAP") ∈ events ∨ some ("1 BOOT") ∈ events
    · have hc : (inform_handler st tree node).2 =
          ⟨some (get_cwmp_inform_serial node),
            send_configuration st.cache (get_cwmp_inform_serial node) true⟩ := by
        simp only [inform_handler, hev, if_pos hboot]
        by_cases hnone : (none : Option String) ∈ events
        · rw [if_pos hnone]
        · rw [if_neg hnone]
      rw [hc]
      refine ⟨rfl, ?_, ?_⟩
      · intro _ _ _
        rfl
      · intro hno
        exfalso
        rcases hboot with h | h
        · exact (hno events rfl).1 h
        · exact (hno events rfl).2 h
    · have hc : (inform_handler st tree node).2 =
          ⟨some (get_cwmp_inform_serial node), st.cache⟩ := by
        simp only [inform_handler, hev, if_neg hboot]
        by_cases hnone : (none : Option String) ∈ events
        · rw [if_pos hnone]
        · rw [if_neg hnone]
      rw [hc]
      refine ⟨rfl, ?_, ?_⟩
      · intro events2 h2 hb
        injection h2 with h3
        subst h3
        exact absurd hb hboot
      · intro _
        rfl

/-- Witness for the amended C3 at a concrete bootstrap Inform: the serial
is stored and the ledger entry forced to true. -/
theorem claim_C3_amended_witness :
    (inform_handler exSt0 exTreeInformBoot exNodeInformBoot).2.session =
      some (get_cwmp_inform_serial exNodeInformBoot) ∧
    (inform_handler exSt0 exTreeInformBoot exNodeInformBoot).2.cache =
      Cache.set exSt0.cache (get_cwmp_inform_serial exNodeInformBoot) true :=
  have h := claim_C3_amended exSt0 exTreeInformBoot exNodeInformBoot
    (some [some ("0 BOOTSTRAP")]) rfl
  ⟨h.1, h.2.1 [some ("0 BOOTSTRAP")] rfl (Or.inl (List.mem_cons_self _ _))⟩

/-- Claim C4 (code bug): the extraction helper does return an absent value
for a missing Event node, but the Inform handler then evaluates a
membership test on that absent value — TypeError in the source — so the
exchange fails instead of completing; and the events helper itself raises
(AttributeError) on an EventStruct without an EventCode.  Evaluated at the
failing inputs. -/
theorem claim_C4_bug :
    get_cwmp_inform_events exNodeInformNoEvent = .ok none ∧
    (inform_handler exSt0 exTreeInformNoEvent exNodeInformNoEvent).1 = .error () ∧
    collectEventCodes [XmlElem.mk ("EventStruct") none []] = .error () :=
  ⟨rfl, rfl, rfl⟩

/-- Claim C7 (confirmed): whenever the Inform handler renders an
acknowledgement at all, it carries exactly the cwmp id extracted from the
envelope, unchanged. -/
theorem claim_C7 (st : ServerState) (tree node : XmlElem) (cid : String)
    (r : Response) (st' : ServerState)
    (hid : get_cwmp_id tree = some cid)
    (h : inform_handler st tree node = (.ok r, st')) :
    r = .informAck (some cid) := by
  unfold inform_handler at h
  cases hev : get_cwmp_inform_events node with
  | error e =>
    rw [hev] at h
    have h1 := congrArg Prod.fst h
    simp at h1
  | ok evOpt =>
    rw [hev] at h
    cases evOpt with
    | none =>
      have h1 := congrArg Prod.fst h
      simp at h1
    | some events =>
      by_cases hnone : (none : Option String) ∈ events
      · simp only [if_pos hnone] at h
        have h1 := congrArg Prod.fst h
        simp at h1
      · simp only [if_neg hnone] at h
        have h1 := congrArg Prod.fst h
        simp only [] at h1
        rw [← hid]
        exact (Except.ok.inj h1).symm

/-- Witness for C7 at a concrete Inform carrying Header ID 77: the
acknowledgement echoes 77. -/
theorem claim_C7_witness :
    Response.informAck (some ("77")) = .informAck (some ("77")) :=
  claim_C7 exSt0 exTreeInformBoot exNodeInformBoot ("77")
    (.informAck (some ("77")))
    ⟨some (some ("SN1")), Cache.set exSt0.cache (some ("SN1")) true⟩ rfl rfl

/- ## Claim theorems: method dispatch totality -/

/-- The Body-children scan only ever yields one of the three recognized
method names, paired with the child it matched. -/
theorem scanBodyChildren_sound (l : List XmlElem) (m : String) (node : XmlElem)
    (h : scanBodyChildren l = some (m, node)) :
    (m = ("Fault") ∨ m = ("Inform") ∨ m = ("SetParameterValuesResponse")) ∧ node ∈ l := by
  induction l with
  | nil => cases h
  | cons c rest ih =>
    simp only [scanBodyChildren] at h
    split at h
    · injection h with h2
      injection h2 with h3 h4
      subst h3
      subst h4
      exact ⟨Or.inl rfl, List.mem_cons_self _ _⟩
    · split at h
      · injection h with h2
        injection h2 with h3 h4
        subst h3
        subst h4
        exact ⟨Or.inr (Or.inl rfl), List.mem_cons_self _ _⟩
      · split at h
        · injection h with h2
          injection h2 with h3 h4
          subst h3
          subst h4
          exact ⟨Or.inr (Or.inr rfl), List.mem_cons_self _ _⟩
        · exact ⟨(ih h).1, List.mem_cons_of_mem _ (ih h).2⟩

/-- get_cwmp_method returns none or one of the three recognized methods
together with a direct child of the SOAP Body element. -/
theorem get_cwmp_method_sound (root : XmlElem) (m : String) (node : XmlElem)
    (h : get_cwmp_method root = some (m, node)) :
    (m = ("Fault") ∨ m = ("Inform") ∨ m = ("SetParameterValuesResponse")) ∧
    ∃ body, root.find (qualTag soapNS ("Body")) = some body ∧ node ∈ body.children := by
  unfold get_cwmp_method at h
  cases hb : root.find (qualTag soapNS ("Body")) with
  | none =>
    rw [hb] at h
    cases h
  | some body =>
    rw [hb] at h
    have hs := scanBodyChildren_sound body.children m node h
    exact ⟨hs.1, body, rfl, hs.2⟩

/-- Claim C10 (confirmed): for every parsed tree, get_cwmp_method yields
none or a pair of one of the three recognized method names and a direct
child of the SOAP Body; consequently the dispatcher on an XML body is
fully described by the none case and the three method branches — the
trailing generic-banner return is unreachable. -/
theorem claim_C10 (config : Config) (st : ServerState) (tree : XmlElem) :
    (∀ m node, get_cwmp_method tree = some (m, node) →
      (m = ("Fault") ∨ m = ("Inform") ∨ m = ("SetParameterValuesResponse")) ∧
      ∃ body, tree.find (qualTag soapNS ("Body")) = some body ∧ node ∈ body.children) ∧
    handle_post config st (.xml tree) =
      (match get_cwmp_method tree with
       | none => (.ok (.text ("Failed to get the cwmp method")), st)
       | some (m, node) =>
         if m = ("Fault") then (.ok (.text ("Fault")), st)
         else if m = ("Inform") then inform_handler st tree node
         else setparams_response st node) := by
  constructor
  · intro m node h
    exact get_cwmp_method_sound tree m node h
  · cases hm : get_cwmp_method tree with
    | none => simp only [handle_post, hm]
    | some p =>
      obtain ⟨m, node⟩ := p
      rcases (get_cwmp_method_sound tree m node hm).1 with h | h | h
      · subst h
        simp only [handle_post, hm]
        rfl
      · subst h
        simp only [handle_post, hm]
        rfl
      · subst h
        simp only [handle_post, hm]
        rfl

/-- Witness for C10 at a concrete Inform envelope: the method name is one
of the three and the node is a direct Body child. -/
theorem claim_C10_witness :
    ((("Inform") : String) = ("Fault") ∨ (("Inform") : String) = ("Inform") ∨
      (("Inform") : String) = ("SetParameterValuesResponse")) ∧
    ∃ body, exTreeInformBoot.find (qualTag soapNS ("Body")) = some body ∧
      exNodeInformBoot ∈ body.children :=
  (claim_C10 exConfig exSt0 exTreeInformBoot).1 ("Inform") exNodeInformBoot rfl
